import Mathlib

/-!
# Verification development for the service-management form scripts

Two browser scripts are embedded here:

* `garantia.js`   : `checkGarantia`, the warranty indicator toggle;
* `autocomplete.js`: `clearClientFields` and the `blur` handler of the client lookup.

The scripts only call built-ins of the platform.  The parts of ECMA-262 they rely on
(`Date` arithmetic, `String.prototype.trim`, `ToBoolean`, `ToString`) are written out as
executable definitions under their ECMA-262 names, and so is the value sanitisation that
the HTML standard prescribes for the `value` of a form control.  Time values are integers (milliseconds
since the epoch, UTC); every number that occurs is an integer below `2 ^ 53`, so the
arithmetic of the script is exact.  `NaN` (an invalid `Date`) is `none`.
-/

namespace Garantia

/-! ## ECMA-262 day and year arithmetic -/

/-- Milliseconds in one day (ECMA-262 `msPerDay`). -/
def msPerDay : Int := 86400000

/-- Day number of a time value: `floor (t / msPerDay)`. -/
def Day (t : Int) : Int := t / msPerDay

/-- Milliseconds elapsed since the start of the day: `t modulo msPerDay`. -/
def TimeWithinDay (t : Int) : Int := t % msPerDay

/-- Number of days of year `y` in the proleptic Gregorian calendar. -/
def DaysInYear (y : Int) : Int :=
  if y % 4 ≠ 0 then 365
  else if y % 100 ≠ 0 then 366
  else if y % 400 ≠ 0 then 365
  else 366

/-- Day number of the first day of year `y`. -/
def DayFromYear (y : Int) : Int :=
  365 * (y - 1970) + (y - 1969) / 4 - (y - 1901) / 100 + (y - 1601) / 400

/-- Year that contains day number `d`: the largest `y` with `DayFromYear y ≤ d`
(see `yearFromDay_spec` and `yearFromDay_unique`), found from a mean-year estimate
that is off by at most one. -/
def yearFromDay (d : Int) : Int :=
  let y := 1970 + (400 * d) / 146097
  if DayFromYear (y + 1) ≤ d then y + 1
  else if DayFromYear y ≤ d then y
  else y - 1

/-- Year of a (local) time value. -/
def YearFromTime (t : Int) : Int := yearFromDay (Day t)

/-- One for a leap year, zero for a common year. -/
def leapFlag (y : Int) : Int := if DaysInYear y = 366 then 1 else 0

/-- One in a leap year, zero otherwise. -/
def InLeapYear (t : Int) : Int := leapFlag (YearFromTime t)

/-- Zero-based day of the year. -/
def DayWithinYear (t : Int) : Int := Day t - DayFromYear (YearFromTime t)

/-- Zero-based day of the year on which month `m` (0 = January) begins; `leap` is
`InLeapYear`. -/
def monthStart (leap : Int) (m : Int) : Int :=
  if m = 0 then 0
  else if m = 1 then 31
  else if m = 2 then 59 + leap
  else if m = 3 then 90 + leap
  else if m = 4 then 120 + leap
  else if m = 5 then 151 + leap
  else if m = 6 then 181 + leap
  else if m = 7 then 212 + leap
  else if m = 8 then 243 + leap
  else if m = 9 then 273 + leap
  else if m = 10 then 304 + leap
  else 334 + leap

/-- Month (0 = January) of day `d` of the year (0-based), the table of ECMA-262; `l` is
`InLeapYear`. -/
def monthOfDay (l d : Int) : Int :=
  if d < 31 then 0
  else if d < 59 + l then 1
  else if d < 90 + l then 2
  else if d < 120 + l then 3
  else if d < 151 + l then 4
  else if d < 181 + l then 5
  else if d < 212 + l then 6
  else if d < 243 + l then 7
  else if d < 273 + l then 8
  else if d < 304 + l then 9
  else if d < 334 + l then 10
  else 11

/-- Month of a (local) time value, 0 = January. -/
def MonthFromTime (t : Int) : Int := monthOfDay (InLeapYear t) (DayWithinYear t)

/-- Day of the month (1-based) of a (local) time value. -/
def DateFromTime (t : Int) : Int :=
  DayWithinYear t - monthStart (InLeapYear t) (MonthFromTime t) + 1

/-- ECMA-262 `MakeDay`: day number of day `date` of month `month` (0-based) of `year`;
months outside `0..11` carry into the year and days outside the month carry on. -/
def MakeDay (year month date : Int) : Int :=
  let ym := year + month / 12
  let mn := month % 12
  DayFromYear ym + monthStart (leapFlag ym) mn + date - 1

/-- ECMA-262 `MakeTime`. -/
def MakeTime (hour min sec ms : Int) : Int :=
  hour * 3600000 + min * 60000 + sec * 1000 + ms

/-- ECMA-262 `MakeDate`. -/
def MakeDate (day time : Int) : Int := day * msPerDay + time

/-- ECMA-262 `TimeClip`: time values beyond `8.64e15` ms are invalid. -/
def TimeClip (t : Int) : Option Int :=
  if t < -8640000000000000 ∨ 8640000000000000 < t then none else some t

/-! ## The host environment -/

/-- What the page cannot see from the script: the local time zone and the
implementation-defined part of `Date` parsing.

* `tza` is the offset of local time from UTC in milliseconds.  It is one constant: the
  zone is assumed to have a fixed offset (no daylight-saving transitions).  In a zone
  with daylight saving the offset depends on the moment; such zones are outside this
  model, and what is proved for every `Env` is proved for the zones with a fixed offset.
* `parseOther` is the result of `Date.parse` on every string that is not of the shape
  `YYYY-MM-DDT00:00:00` with a valid calendar date (ECMA-262 leaves most of those to the
  implementation); `none` is `NaN`. -/
structure Env where
  tza : Int
  parseOther : String → Option Int
  tza_lt_day : -msPerDay < tza ∧ tza < msPerDay

/-- ECMA-262 `LocalTime`. -/
def LocalTime (env : Env) (t : Int) : Int := t + env.tza

/-- ECMA-262 `UTC`. -/
def UTC (env : Env) (t : Int) : Int := t - env.tza

/-! ## `Date` parsing -/

/-- Value of a decimal digit. -/
def digitVal (c : Char) : Option Int :=
  if 48 ≤ c.toNat ∧ c.toNat ≤ 57 then some ((c.toNat : Int) - 48) else none

/-- Number of days of month `m` (1 = January) of year `y`. -/
def DaysInMonth (y m : Int) : Int :=
  if m = 2 then 28 + leapFlag y
  else if m = 4 ∨ m = 6 ∨ m = 9 ∨ m = 11 then 30
  else 31

/-- Reads `YYYY-MM-DDT00:00:00`: the year, month (1-based) and day when the string has
exactly this shape and names a day that exists. -/
def parseISODate (s : String) : Option (Int × Int × Int) :=
  if s.data.drop 10 = ['T', '0', '0', ':', '0', '0', ':', '0', '0'] then
    match s.data.take 10 with
    | [y3, y2, y1, y0, s1, m1, m0, s2, d1, d0] =>
      match digitVal y3, digitVal y2, digitVal y1, digitVal y0,
            digitVal m1, digitVal m0, digitVal d1, digitVal d0 with
      | some a, some b, some c, some e, some f, some g, some h, some i =>
        let y := 1000 * a + 100 * b + 10 * c + e
        let m := 10 * f + g
        let d := 10 * h + i
        if s1 = '-' ∧ s2 = '-' ∧ 1 ≤ m ∧ m ≤ 12 ∧ 1 ≤ d ∧ d ≤ DaysInMonth y m then
          some (y, m, d)
        else none
      | _, _, _, _, _, _, _, _ => none
    | _ => none
  else none

/-- Time value of `new Date(s)` for a string `s`: a date-time without a zone designator
is local time. -/
def dateParse (env : Env) (s : String) : Option Int :=
  match parseISODate s with
  | some (y, m, d) => TimeClip (UTC env (MakeDate (MakeDay y (m - 1) d) (MakeTime 0 0 0 0)))
  | none => (env.parseOther s).bind TimeClip

/-! ## The `Date` methods used by the script -/

/-- `Date.prototype.getFullYear`: `NaN` for an invalid date. -/
def getFullYear (env : Env) (tv : Option Int) : Option Int :=
  tv.map (fun t => YearFromTime (LocalTime env t))

/-- `Date.prototype.setFullYear(year)`: the new time value.  The month, the day of the
month and the time of day are kept; an invalid date counts as time value `+0`; a `NaN`
year gives an invalid date. -/
def setFullYear (env : Env) (tv : Option Int) (year : Option Int) : Option Int :=
  match year with
  | none => none
  | some y =>
    let t := match tv with
      | none => 0
      | some v => LocalTime env v
    TimeClip (UTC env (MakeDate (MakeDay y (MonthFromTime t) (DateFromTime t)) (TimeWithinDay t)))

/-- The comparison `a >= b` of a `Date` with a valid `Date`: both are converted to their
time values, and a comparison with `NaN` is false. -/
def dateGe (a : Option Int) (b : Int) : Bool :=
  match a with
  | none => false
  | some x => decide (b ≤ x)

/-! ## `garantia.js` -/

/-- The two elements looked up when the page has loaded.  `fechaCompraInput` is the
`value` of `#id_fecha_compra` and `garantiaStatus` the `style.display` of
`#garantia-status`; `none` when `getElementById` finds no such element. -/
structure Page where
  fechaCompraInput : Option String
  garantiaStatus : Option String
deriving DecidableEq

/-- `fechaCompra`: `new Date(fechaCompraStr + 'T00:00:00')`. -/
def fechaCompra (env : Env) (fechaCompraStr : String) : Option Int :=
  dateParse env (fechaCompraStr ++ "T00:00:00")

/-- `fechaLimite`: a copy of `fechaCompra` whose year is set to `getFullYear() + 1`. -/
def fechaLimite (env : Env) (fechaCompraStr : String) : Option Int :=
  let copia := fechaCompra env fechaCompraStr
  setFullYear env copia ((getFullYear env copia).map (· + 1))

/-- `checkGarantia`, run when `new Date()` reads the time value `hoy`. -/
def checkGarantia (env : Env) (hoy : Int) (p : Page) : Page :=
  match p.fechaCompraInput, p.garantiaStatus with
  | some fechaCompraStr, some _ =>
    if fechaCompraStr = "" then
      { p with garantiaStatus := some "none" }
    else
      let enGarantia := dateGe (fechaLimite env fechaCompraStr) hoy
      if enGarantia then
        { p with garantiaStatus := some "inline-block" }
      else
        { p with garantiaStatus := some "none" }
  | _, _ => p

/-- A `change` event of the date input: the input holds the new value `v` and the
listener `checkGarantia` runs. -/
def onChange (env : Env) (hoy : Int) (p : Page) (v : String) : Page :=
  checkGarantia env hoy { p with fechaCompraInput := p.fechaCompraInput.map (fun _ => v) }

/-- Local zone used in the examples: UTC-5, no daylight saving. -/
def lima : Env := ⟨-18000000, fun _ => none, by decide⟩

/-! ## Calendar dates named by the claims -/

/-- A month (1-based) and a day that exist in year `y`. -/
def ValidDate (y m d : Int) : Prop :=
  1 ≤ m ∧ m ≤ 12 ∧ 1 ≤ d ∧ d ≤ DaysInMonth y m

instance (y m d : Int) : Decidable (ValidDate y m d) := by
  unfold ValidDate
  infer_instance

/-- Day number of the day one year before today: the month and the day of the month of the
local date of `hoy`, in the previous year. -/
def oneYearBefore (env : Env) (hoy : Int) : Int :=
  MakeDay (YearFromTime (LocalTime env hoy) - 1) (MonthFromTime (LocalTime env hoy))
    (DateFromTime (LocalTime env hoy))

end Garantia

namespace Autocomplete

/-! ## Values of the language used by `autocomplete.js` -/

/-- Code points removed by `String.prototype.trim`: the ECMA-262 `WhiteSpace` and
`LineTerminator` code points. -/
def isTrimChar (c : Char) : Bool :=
  let n := c.toNat
  n = 9 || n = 10 || n = 11 || n = 12 || n = 13 || n = 32 || n = 160 || n = 5760 ||
    (8192 ≤ n && n ≤ 8202) || n = 8232 || n = 8233 || n = 8239 || n = 8287 || n = 12288 ||
    n = 65279

/-- `String.prototype.trim`: white space is removed from both ends. -/
def trim (s : String) : String :=
  ⟨((s.data.dropWhile isTrimChar).reverse.dropWhile isTrimChar).reverse⟩

/-- A value read from the parsed response.  Numbers, arrays and objects are kept as
`other`, by the two things the script can observe of them: their truthiness and the text
they convert to. -/
inductive JSVal where
  | undefined
  | null
  | bool (b : Bool)
  | str (s : String)
  | other (truthy : Bool) (text : String)
deriving DecidableEq

/-- ECMA-262 `ToBoolean`, the test of `if (data.existe)`. -/
def ToBoolean : JSVal → Bool
  | .undefined => false
  | .null => false
  | .bool b => b
  | .str s => decide (s ≠ "")
  | .other truthy _ => truthy

/-- ECMA-262 `ToString`, the conversion inside a template literal. -/
def ToString : JSVal → String
  | .undefined => "undefined"
  | .null => "null"
  | .bool true => "true"
  | .bool false => "false"
  | .str s => s
  | .other _ text => text

/-- Conversion done by an assignment to the `value` of an input element: as `ToString`,
except that `null` becomes the empty string. -/
def toValue : JSVal → String
  | .null => ""
  | v => ToString v

/-- The properties the script reads of `data`, the parsed body of the response; a
property that is absent is `undefined`. -/
structure Data where
  existe : JSVal
  nombre : JSVal
  direccion : JSVal
  telefono : JSVal
  celular : JSVal
  email : JSVal
deriving DecidableEq

/-- How the request ends: `fetch` rejects (transport failure), `response.json()` rejects
(the body is not JSON), or the body is parsed.  A parsed body is `none` when it is the JSON
value `null`, of which no property can be read. -/
inductive FetchResult where
  | rejected
  | badJSON
  | json (data : Option Data)
deriving DecidableEq

/-- The error handed to the `catch` callback. -/
inductive JSError where
  | network
  | syntaxError
  | typeError
deriving DecidableEq

/-! ## The document -/

/-- A text input of the client form. -/
structure Field where
  value : String
  readOnly : Bool
deriving DecidableEq

/-- The object `fields`: for each key the element found by `getElementById` when the
script was loaded, `none` when there is no such element. -/
structure Fields where
  nombre : Option Field
  direccion : Option Field
  telefono : Option Field
  celular : Option Field
  email : Option Field
deriving DecidableEq

/-- The kind of control behind a field.  The `value` setter of a control runs the value
sanitisation of its kind (HTML standard): `text` stands for an `input` of type `text`,
`search`, `tel` or `password`, `email` for an `input` of type `email` or `url`, and
`textarea` for a `textarea` element. -/
inductive InputKind where
  | text
  | email
  | textarea
deriving DecidableEq

/-- The kind of each of the five elements.  The page template that declares the elements
is not among the sources, so the kinds are a parameter of the document. -/
structure Kinds where
  nombre : InputKind
  direccion : InputKind
  telefono : InputKind
  celular : InputKind
  email : InputKind
deriving DecidableEq

/-- What the script reads and writes: the value of `claveInput` (the element exists,
since the listener is only registered then), the five fields with the kinds of their
elements, and the notices shown by `alert`, the errors written by `console.error` and the
addresses requested by `fetch`, each in order. -/
structure Doc where
  claveInput : String
  fields : Fields
  kinds : Kinds
  alerts : List String
  errors : List JSError
  requests : List String
deriving DecidableEq

/-- The fields in the order of the keys of `fields`. -/
def Fields.toList (fs : Fields) : List (Option Field) :=
  [fs.nombre, fs.direccion, fs.telefono, fs.celular, fs.email]

/-- The fields whose element exists. -/
def Fields.existing (fs : Fields) : List Field :=
  fs.toList.filterMap id

/-- The loop `for (let key in fields) if (fields[key]) ...`: `f` is applied to every
field whose element exists. -/
def Fields.forEach (f : Field → Field) (fs : Fields) : Fields :=
  { nombre := fs.nombre.map f
    direccion := fs.direccion.map f
    telefono := fs.telefono.map f
    celular := fs.celular.map f
    email := fs.email.map f }

/-! ## Value sanitisation of the controls -/

/-- Line feed or carriage return. -/
def isNewline (c : Char) : Bool :=
  c.toNat = 10 || c.toNat = 13

/-- ASCII white space of the HTML standard: tab, line feed, form feed, carriage return
and space. -/
def isASCIIWhitespace (c : Char) : Bool :=
  c.toNat = 9 || c.toNat = 10 || c.toNat = 12 || c.toNat = 13 || c.toNat = 32

/-- Strip newlines: every line feed and carriage return is removed. -/
def stripNewlines (cs : List Char) : List Char :=
  cs.filter (fun c => !isNewline c)

/-- Strip leading and trailing ASCII white space. -/
def stripASCIIWhitespace (cs : List Char) : List Char :=
  ((cs.dropWhile isASCIIWhitespace).reverse.dropWhile isASCIIWhitespace).reverse

/-- Normalise newlines, reading from the left: every carriage return becomes a line feed,
and a line feed that follows a carriage return directly (`afterCR`) is dropped. -/
def normalizeFrom (afterCR : Bool) : List Char → List Char
  | [] => []
  | c :: rest =>
    if c.toNat = 13 then Char.ofNat 10 :: normalizeFrom true rest
    else if c.toNat = 10 ∧ afterCR = true then normalizeFrom false rest
    else c :: normalizeFrom false rest

/-- Normalise newlines: a carriage return followed by a line feed becomes one line feed,
and every other carriage return becomes a line feed. -/
def normalizeNewlines (cs : List Char) : List Char :=
  normalizeFrom false cs

/-- The string that a control of kind `k` holds (what reading `value` returns) after `s`
is assigned to its `value`. -/
def sanitize (k : InputKind) (s : String) : String :=
  match k with
  | .text => ⟨stripNewlines s.data⟩
  | .email => ⟨stripASCIIWhitespace (stripNewlines s.data)⟩
  | .textarea => ⟨normalizeNewlines s.data⟩

/-- All five elements are plain text inputs. -/
def textKinds : Kinds := ⟨.text, .text, .text, .text, .text⟩

/-- The first character, if any, is not ASCII white space. -/
def startsClean (cs : List Char) : Bool :=
  match cs with
  | [] => true
  | c :: _ => !isASCIIWhitespace c

/-- A string that a control of kind `k` keeps as it is: for a text input a string
without line feed and carriage return; for an email input in addition one that neither
begins nor ends with ASCII white space; for a textarea a string without carriage return. -/
def KeptAsIs (k : InputKind) (s : String) : Prop :=
  match k with
  | .text => ∀ c ∈ s.data, isNewline c = false
  | .email => (∀ c ∈ s.data, isNewline c = false) ∧ startsClean s.data = true ∧
      startsClean s.data.reverse = true
  | .textarea => ∀ c ∈ s.data, c.toNat ≠ 13

instance (k : InputKind) (s : String) : Decidable (KeptAsIs k s) := by
  cases k <;> unfold KeptAsIs <;> infer_instance

/-- A page with the five fields present, as text inputs, and an identifier typed with
spaces around it. -/
def exampleDoc : Doc :=
  ⟨" 20123456789 ", ⟨some ⟨"x", false⟩, some ⟨"", false⟩, some ⟨"", true⟩, some ⟨"y", false⟩,
    some ⟨"", false⟩⟩, textKinds, [], [], []⟩

/-- A response for a client that exists. -/
def exampleData : Data :=
  ⟨.bool true, .str "Ana", .str "Calle 1", .str "123", .str "999", .str "a@b.c"⟩

/-! ## `autocomplete.js` -/

/-- `clearClientFields`: every existing field gets the empty value and becomes editable.
(The empty string is left as it is by the value sanitisation of every kind.) -/
def clearClientFields (d : Doc) : Doc :=
  { d with fields := d.fields.forEach (fun fld => { fld with value := "", readOnly := false }) }

/-- The statement `element.value = v` for an element of kind `k`: `v` is converted to a
string and sanitised by the control; `none` is the `TypeError` raised when the element is
`null`. -/
def assignValue (k : InputKind) (element : Option Field) (v : JSVal) : Option Field :=
  element.map (fun fld => { fld with value := sanitize k (toValue v) })

/-- The callback of the second `then`, called with the parsed body `data`.  The result is
`.ok` with the document it leaves, or `.error` with the document at the moment an
exception is raised: reading `data.existe` of `null`, or assigning to the `value` of a
field whose element does not exist. -/
def thenCallback (clave : String) (data : Option Data) (d : Doc) : Except Doc Doc :=
  match data with
  | none => .error d
  | some data =>
    if ToBoolean data.existe then
      let d := { d with alerts := d.alerts ++
        ["Cliente " ++ ToString data.nombre ++ " encontrado. Autocompletando datos."] }
      match assignValue d.kinds.nombre d.fields.nombre data.nombre with
      | none => .error d
      | some f1 =>
      let d := { d with fields := { d.fields with nombre := some f1 } }
      match assignValue d.kinds.direccion d.fields.direccion data.direccion with
      | none => .error d
      | some f2 =>
      let d := { d with fields := { d.fields with direccion := some f2 } }
      match assignValue d.kinds.telefono d.fields.telefono data.telefono with
      | none => .error d
      | some f3 =>
      let d := { d with fields := { d.fields with telefono := some f3 } }
      match assignValue d.kinds.celular d.fields.celular data.celular with
      | none => .error d
      | some f4 =>
      let d := { d with fields := { d.fields with celular := some f4 } }
      match assignValue d.kinds.email d.fields.email data.email with
      | none => .error d
      | some f5 =>
      let d := { d with fields := { d.fields with email := some f5 } }
      .ok { d with fields := d.fields.forEach (fun fld => { fld with readOnly := true }) }
    else
      let d := { d with alerts := d.alerts ++
        ["Cliente no encontrado. Por favor, ingrese sus datos completos."] }
      let d := clearClientFields d
      .ok { d with claveInput := clave }

/-- The callback of `catch`. -/
def catchCallback (clave : String) (error : JSError) (d : Doc) : Doc :=
  let d := { d with errors := d.errors ++ [error] }
  let d := { d with alerts := d.alerts ++ ["Ocurrió un error al intentar la búsqueda."] }
  let d := clearClientFields d
  { d with claveInput := clave }

/-- The synchronous part of the `blur` listener: the document it leaves and, when a
request was issued, the value of `clave` that the callbacks keep. -/
def onBlur (d : Doc) : Doc × Option String :=
  let clave := trim d.claveInput
  if clave.length > 0 then
    let apiUrl := "/servicios/api/buscar_cliente/?clave=" ++ clave
    ({ d with requests := d.requests ++ [apiUrl] }, some clave)
  else
    (clearClientFields d, none)

/-- The continuation `.then(response => response.json()).then(...).catch(...)`, run on
the document `d` when the request ends with `r`: a rejection of `fetch` or of
`response.json()` skips to `catch`, and so does an exception raised by the callback. -/
def onSettled (clave : String) (r : FetchResult) (d : Doc) : Doc :=
  match r with
  | .rejected => catchCallback clave .network d
  | .badJSON => catchCallback clave .syntaxError d
  | .json data =>
    match thenCallback clave data d with
    | .ok d2 => d2
    | .error d2 => catchCallback clave .typeError d2

/-- One `blur` event whose request, if any, ends with `r`: the listener followed by its
continuation. -/
def blurEvent (r : FetchResult) (d : Doc) : Doc :=
  match onBlur d with
  | (d1, none) => d1
  | (d1, some clave) => onSettled clave r d1

end Autocomplete

namespace Garantia

/-! ## Facts about the calendar arithmetic -/

theorem DaysInYear_bounds (y : Int) : 365 ≤ DaysInYear y ∧ DaysInYear y ≤ 366 := by
  unfold DaysInYear
  omega

theorem leapFlag_cases (y : Int) :
    (leapFlag y = 0 ∧ DaysInYear y = 365) ∨ (leapFlag y = 1 ∧ DaysInYear y = 366) := by
  have hb := DaysInYear_bounds y
  unfold leapFlag
  omega

/-- Two consecutive years are never both leap years. -/
theorem leapFlag_consecutive (y : Int) : leapFlag y + leapFlag (y + 1) ≤ 1 := by
  unfold leapFlag DaysInYear
  omega

theorem DayFromYear_succ (y : Int) : DayFromYear (y + 1) = DayFromYear y + DaysInYear y := by
  unfold DayFromYear DaysInYear
  omega

theorem DayFromYear_estimate (y : Int) :
    146097 * (y - 1970) - 506 ≤ 400 * DayFromYear y ∧
      400 * DayFromYear y ≤ 146097 * (y - 1970) + 589 := by
  unfold DayFromYear
  omega

/-- The year found by `yearFromDay` contains the day. -/
theorem yearFromDay_spec (d : Int) :
    DayFromYear (yearFromDay d) ≤ d ∧ d < DayFromYear (yearFromDay d + 1) := by
  unfold yearFromDay
  simp only
  generalize he : 400 * d / 146097 = e
  have h0 := DayFromYear_estimate (1970 + e - 1)
  have h2 := DayFromYear_estimate (1970 + e + 1 + 1)
  have hs : 1970 + e - 1 + 1 = 1970 + e := by omega
  by_cases h3 : DayFromYear (1970 + e + 1) ≤ d
  · rw [if_pos h3]
    exact ⟨h3, by omega⟩
  · rw [if_neg h3]
    by_cases h4 : DayFromYear (1970 + e) ≤ d
    · rw [if_pos h4]
      exact ⟨h4, by omega⟩
    · rw [if_neg h4, hs]
      exact ⟨by omega, by omega⟩

/-- Only one year contains a given day. -/
theorem yearFromDay_unique (d y : Int) (h1 : DayFromYear y ≤ d) (h2 : d < DayFromYear (y + 1)) :
    yearFromDay d = y := by
  have hy := DayFromYear_estimate y
  have hy1 := DayFromYear_estimate (y + 1)
  have hb : y - 1 ≤ 1970 + 400 * d / 146097 ∧ 1970 + 400 * d / 146097 ≤ y + 1 := by omega
  unfold yearFromDay
  simp only
  generalize 1970 + 400 * d / 146097 = e at hb ⊢
  have hcase : e = y - 1 ∨ e = y ∨ e = y + 1 := by omega
  have s1 := DayFromYear_succ (y + 1)
  have b1 := DaysInYear_bounds (y + 1)
  rcases hcase with h | h | h
  · subst h
    have hs : y - 1 + 1 = y := by omega
    rw [hs, if_pos h1]
  · subst h
    rw [if_neg (by omega), if_pos h1]
  · subst h
    rw [if_neg (by omega), if_neg (by omega)]
    omega

theorem Day_MakeDate (n tw : Int) (h0 : 0 ≤ tw) (h1 : tw < msPerDay) :
    Day (MakeDate n tw) = n ∧ TimeWithinDay (MakeDate n tw) = tw := by
  unfold Day TimeWithinDay MakeDate msPerDay at *
  omega

theorem MakeDay_month (y m d : Int) (h1 : 1 ≤ m) (h2 : m ≤ 12) :
    MakeDay y (m - 1) d = DayFromYear y + monthStart (leapFlag y) (m - 1) + d - 1 := by
  unfold MakeDay
  have e1 : (m - 1) / 12 = 0 := by omega
  have e2 : (m - 1) % 12 = m - 1 := by omega
  simp only [e1, e2, add_zero]

/-- Reading the calendar fields of a time value on a day that exists gives that day back. -/
theorem fields_of_MakeDay (y m d t : Int) (h : ValidDate y m d)
    (ht : Day t = MakeDay y (m - 1) d) :
    YearFromTime t = y ∧ MonthFromTime t = m - 1 ∧ DateFromTime t = d := by
  have hk := MakeDay_month y m d h.1 h.2.1
  have hlc := leapFlag_cases y
  obtain ⟨h1, h2, h3, h4⟩ := h
  have hin : DayFromYear y ≤ MakeDay y (m - 1) d ∧ MakeDay y (m - 1) d < DayFromYear (y + 1) := by
    rw [DayFromYear_succ, hk]
    unfold DaysInMonth at h4
    unfold monthStart
    omega
  have hy : YearFromTime t = y := by
    unfold YearFromTime
    rw [ht]
    exact yearFromDay_unique _ _ hin.1 hin.2
  have hw : DayWithinYear t = monthStart (leapFlag y) (m - 1) + d - 1 := by
    unfold DayWithinYear
    rw [hy, ht, hk]
    omega
  have hl : InLeapYear t = leapFlag y := by
    unfold InLeapYear
    rw [hy]
  have hm : MonthFromTime t = m - 1 := by
    unfold MonthFromTime
    rw [hw, hl]
    unfold DaysInMonth at h4
    unfold monthOfDay monthStart
    omega
  refine ⟨hy, hm, ?_⟩
  unfold DateFromTime
  rw [hm, hw, hl]
  omega

/-- The calendar fields of any time value name a day that exists, and `MakeDay` of them
is the day number of the time value. -/
theorem MakeDay_of_fields (t : Int) :
    ValidDate (YearFromTime t) (MonthFromTime t + 1) (DateFromTime t) ∧
      MakeDay (YearFromTime t) (MonthFromTime t) (DateFromTime t) = Day t := by
  have hs := yearFromDay_spec (Day t)
  rw [DayFromYear_succ] at hs
  change DayFromYear (YearFromTime t) ≤ Day t ∧
    Day t < DayFromYear (YearFromTime t) + DaysInYear (YearFromTime t) at hs
  have hlc := leapFlag_cases (YearFromTime t)
  have hw : DayWithinYear t = Day t - DayFromYear (YearFromTime t) := rfl
  have hl : InLeapYear t = leapFlag (YearFromTime t) := rfl
  have hM : MonthFromTime t = monthOfDay (leapFlag (YearFromTime t)) (DayWithinYear t) := rfl
  have hD : DateFromTime t = DayWithinYear t -
      monthStart (leapFlag (YearFromTime t)) (MonthFromTime t) + 1 := rfl
  have hm1 : 0 ≤ MonthFromTime t ∧ MonthFromTime t ≤ 11 := by
    rw [hM]
    unfold monthOfDay
    omega
  have hk := MakeDay_month (YearFromTime t) (MonthFromTime t + 1) (DateFromTime t)
    (by omega) (by omega)
  rw [show MonthFromTime t + 1 - 1 = MonthFromTime t by omega] at hk
  refine ⟨⟨by omega, by omega, ?_, ?_⟩, by omega⟩
  · rw [hD, hM]
    unfold monthOfDay monthStart
    omega
  · rw [hD]
    unfold DaysInMonth
    rw [hM]
    unfold monthOfDay monthStart
    omega

/-! ## Facts about parsing and the two dates of `checkGarantia` -/

theorem digitVal_bounds (c : Char) (v : Int) (h : digitVal c = some v) : 0 ≤ v ∧ v ≤ 9 := by
  unfold digitVal at h
  split at h
  · injection h with h
    omega
  · exact absurd h (by simp)

/-- What `parseISODate` accepts is a day that exists, in a year of four digits. -/
theorem parseISODate_valid (s : String) (y m d : Int) (h : parseISODate s = some (y, m, d)) :
    0 ≤ y ∧ y ≤ 9999 ∧ ValidDate y m d := by
  unfold parseISODate at h
  split at h
  · split at h
    · split at h
      · rename_i a b c e f g i j ha hb hc he hf hg hi hj
        simp only at h
        split at h
        · rename_i hv
          injection h with h
          injection h with h1 h
          injection h with h2 h3
          have := digitVal_bounds _ _ ha
          have := digitVal_bounds _ _ hb
          have := digitVal_bounds _ _ hc
          have := digitVal_bounds _ _ he
          subst h1 h2 h3
          exact ⟨by omega, by omega, hv.2.2.1, hv.2.2.2.1, hv.2.2.2.2.1, hv.2.2.2.2.2⟩
        · exact absurd h (by simp)
      · exact absurd h (by simp)
    · exact absurd h (by simp)
  · exact absurd h (by simp)

/-- Day numbers of the years that a four-digit year and its successor can name. -/
theorem MakeDay_range (y m d : Int) (h0 : 0 ≤ y) (h1 : y ≤ 10000) (hm1 : 1 ≤ m) (hm2 : m ≤ 12)
    (hd1 : 1 ≤ d) (hd2 : d ≤ 31) :
    -720000 ≤ MakeDay y (m - 1) d ∧ MakeDay y (m - 1) d ≤ 2940000 := by
  rw [MakeDay_month y m d hm1 hm2]
  have hl := leapFlag_cases y
  have he := DayFromYear_estimate y
  unfold monthStart
  omega

theorem DaysInMonth_le (y m : Int) : DaysInMonth y m ≤ 31 := by
  have hl := leapFlag_cases y
  unfold DaysInMonth
  omega

theorem TimeClip_of_day (env : Env) (n : Int) (h0 : -720000 ≤ n) (h1 : n ≤ 2940000) :
    TimeClip (UTC env (MakeDate n 0)) = some (n * msPerDay - env.tza) := by
  have htz := env.tza_lt_day
  unfold TimeClip UTC MakeDate
  unfold msPerDay at *
  rw [if_neg (by omega)]
  simp

/-- `fechaCompra` of a well-formed date is local midnight of that day. -/
theorem fechaCompra_eq (env : Env) (v : String) (y m d : Int)
    (h : parseISODate (v ++ "T00:00:00") = some (y, m, d)) :
    fechaCompra env v = some (MakeDay y (m - 1) d * msPerDay - env.tza) := by
  obtain ⟨hy0, hy1, hm1, hm2, hd1, hd2⟩ := parseISODate_valid _ _ _ _ h
  have hr := MakeDay_range y m d hy0 (by omega) hm1 hm2 hd1 (le_trans hd2 (DaysInMonth_le y m))
  unfold fechaCompra dateParse
  rw [h]
  exact TimeClip_of_day env _ hr.1 hr.2

/-- `fechaLimite` of a well-formed date is local midnight of the same month and day number
in the next year (`MakeDay` carries 29 February on to 1 March). -/
theorem fechaLimite_eq (env : Env) (v : String) (y m d : Int)
    (h : parseISODate (v ++ "T00:00:00") = some (y, m, d)) :
    fechaLimite env v = some (MakeDay (y + 1) (m - 1) d * msPerDay - env.tza) := by
  obtain ⟨hy0, hy1, hv⟩ := parseISODate_valid _ _ _ _ h
  have hv2 := hv
  obtain ⟨hm1, hm2, hd1, hd2⟩ := hv2
  have hr := MakeDay_range (y + 1) m d (by omega) (by omega) hm1 hm2 hd1
    (le_trans hd2 (DaysInMonth_le y m))
  have hlt : LocalTime env (MakeDay y (m - 1) d * msPerDay - env.tza) =
      MakeDate (MakeDay y (m - 1) d) 0 := by
    unfold LocalTime MakeDate
    omega
  have hday := Day_MakeDate (MakeDay y (m - 1) d) 0 (le_refl _) (by decide)
  obtain ⟨f1, f2, f3⟩ := fields_of_MakeDay y m d _ hv hday.1
  unfold fechaLimite
  simp only [fechaCompra_eq env v y m d h, getFullYear, setFullYear, Option.map_some']
  rw [hlt, f1, f2, f3, hday.2]
  exact TimeClip_of_day env _ hr.1 hr.2

/-! ## Position of a day in its year, and the step of one year -/

/-- Zero-based day of the year of a day that exists: it lies in the year, it is past
February exactly from day `59 + leapFlag`, and it is 29 February exactly when it is day 59 of
a leap year. -/
theorem dayOfYear_facts (y m d : Int) (h : ValidDate y m d) :
    0 ≤ monthStart (leapFlag y) (m - 1) + d - 1 ∧
    monthStart (leapFlag y) (m - 1) + d - 1 < 365 + leapFlag y ∧
    (3 ≤ m ↔ 59 + leapFlag y ≤ monthStart (leapFlag y) (m - 1) + d - 1) ∧
    ((m = 2 ∧ d = 29) ↔ (leapFlag y = 1 ∧ monthStart (leapFlag y) (m - 1) + d - 1 = 59)) := by
  obtain ⟨h1, h2, h3, h4⟩ := h
  have hl := leapFlag_cases y
  unfold DaysInMonth at h4
  unfold monthStart
  omega

/-- The first day of a month moves by the change of the leap flag from March on. -/
theorem monthStart_flag (l l2 m : Int) (h1 : 1 ≤ m) (h2 : m ≤ 12) :
    monthStart l2 (m - 1) = monthStart l (m - 1) + (if 3 ≤ m then l2 - l else 0) := by
  unfold monthStart
  omega

theorem MakeDay_in_year (y m d : Int) (h : ValidDate y m d) :
    DayFromYear y ≤ MakeDay y (m - 1) d ∧ MakeDay y (m - 1) d < DayFromYear (y + 1) := by
  have hf := dayOfYear_facts y m d h
  have hl := leapFlag_cases y
  rw [DayFromYear_succ, MakeDay_month y m d h.1 h.2.1]
  omega

/-- Length in days of the step that `setFullYear(getFullYear() + 1)` takes from a day
that exists: 366 when a 29 February lies between the two days, 365 otherwise. -/
theorem MakeDay_next_year (y m d : Int) (h1 : 1 ≤ m) (h2 : m ≤ 12) :
    MakeDay (y + 1) (m - 1) d =
      MakeDay y (m - 1) d + 365 + (if 3 ≤ m then leapFlag (y + 1) else leapFlag y) := by
  rw [MakeDay_month (y + 1) m d h1 h2, MakeDay_month y m d h1 h2, DayFromYear_succ,
    monthStart_flag (leapFlag y) (leapFlag (y + 1)) m h1 h2]
  have hl := leapFlag_cases y
  split_ifs <;> omega

/-- The comparison `fechaLimite >= hoy` for a limit at local midnight of day `e`. -/
theorem dateGe_midnight (env : Env) (hoy e : Int) :
    dateGe (some (e * msPerDay - env.tza)) hoy = true ↔
      Day (LocalTime env hoy) < e ∨
        (Day (LocalTime env hoy) = e ∧ TimeWithinDay (LocalTime env hoy) = 0) := by
  unfold dateGe Day TimeWithinDay LocalTime msPerDay
  simp only [decide_eq_true_eq]
  omega

theorem parse_ne_empty (v : String) (y m d : Int)
    (h : parseISODate (v ++ "T00:00:00") = some (y, m, d)) : v ≠ "" := by
  intro hv
  subst hv
  have hn : parseISODate ("" ++ "T00:00:00") = none := by decide
  rw [hn] at h
  exact absurd h (by simp)

/-- Display left by `checkGarantia` for a non-empty value. -/
theorem checkGarantia_nonempty (env : Env) (hoy : Int) (v prior : String) (hv : v ≠ "") :
    checkGarantia env hoy ⟨some v, some prior⟩ =
      ⟨some v, some (if dateGe (fechaLimite env v) hoy = true then "inline-block" else "none")⟩ := by
  unfold checkGarantia
  simp only [if_neg hv]
  split_ifs <;> rfl

/-- Display left by `checkGarantia` for a well-formed date, in day numbers: the indicator
is shown when the limit day is after today, or is today and it is exactly local midnight. -/
theorem checkGarantia_of_date (env : Env) (hoy : Int) (v prior : String) (y m d : Int)
    (h : parseISODate (v ++ "T00:00:00") = some (y, m, d)) :
    checkGarantia env hoy ⟨some v, some prior⟩ =
      ⟨some v, some (if Day (LocalTime env hoy) < MakeDay (y + 1) (m - 1) d ∨
          (Day (LocalTime env hoy) = MakeDay (y + 1) (m - 1) d ∧
            TimeWithinDay (LocalTime env hoy) = 0)
        then "inline-block" else "none")⟩ := by
  rw [checkGarantia_nonempty env hoy v prior (parse_ne_empty v y m d h),
    fechaLimite_eq env v y m d h]
  simp only [dateGe_midnight]

/-! ## One year before today -/

/-- Days from one year before today to today: 365, or 366 across a 29 February. -/
theorem today_of_oneYearBefore (env : Env) (hoy : Int) :
    Day (LocalTime env hoy) = oneYearBefore env hoy + 365 +
      (if 3 ≤ MonthFromTime (LocalTime env hoy) + 1
        then leapFlag (YearFromTime (LocalTime env hoy))
        else leapFlag (YearFromTime (LocalTime env hoy) - 1)) := by
  obtain ⟨hv, hd⟩ := MakeDay_of_fields (LocalTime env hoy)
  have hn := MakeDay_next_year (YearFromTime (LocalTime env hoy) - 1)
    (MonthFromTime (LocalTime env hoy) + 1) (DateFromTime (LocalTime env hoy)) hv.1 hv.2.1
  simp only [Int.sub_add_cancel, Int.add_sub_cancel] at hn
  unfold oneYearBefore
  rw [← hd, hn]

theorem year_unique (n y z : Int) (hy : DayFromYear y ≤ n ∧ n < DayFromYear (y + 1))
    (hz : DayFromYear z ≤ n ∧ n < DayFromYear (z + 1)) : y = z := by
  rw [← yearFromDay_unique n y hy.1 hy.2, ← yearFromDay_unique n z hz.1 hz.2]

theorem DayFromYear_succ_flag (y : Int) :
    DayFromYear (y + 1) = DayFromYear y + 365 + leapFlag y := by
  have h := DayFromYear_succ y
  have hl := leapFlag_cases y
  omega

/-- A day that exists, by its zero-based day of the year `w`: its day number, the day
number of the same month and day one year later (where `MakeDay` carries 29 February on
to 1 March), and whether it is 29 February. -/
theorem day_in_year (y m d : Int) (h : ValidDate y m d) :
    ∃ w, 0 ≤ w ∧ w < 365 + leapFlag y ∧
      MakeDay y (m - 1) d = DayFromYear y + w ∧
      MakeDay (y + 1) (m - 1) d =
        DayFromYear y + w + 365 + (if 59 + leapFlag y ≤ w then leapFlag (y + 1) else leapFlag y) ∧
      ((m = 2 ∧ d = 29) ↔ (leapFlag y = 1 ∧ w = 59)) := by
  have hk := MakeDay_month y m d h.1 h.2.1
  have hf := dayOfYear_facts y m d h
  have hn := MakeDay_next_year y m d h.1 h.2.1
  refine ⟨monthStart (leapFlag y) (m - 1) + d - 1, hf.1, hf.2.1, by omega, ?_, hf.2.2.2⟩
  rw [hn, hk]
  by_cases h3 : 3 ≤ m
  · rw [if_pos h3, if_pos (hf.2.2.1.mp h3)]
    omega
  · rw [if_neg h3, if_neg (fun hc => h3 (hf.2.2.1.mpr hc))]
    omega

/-- The day one year before a day of year `y + 1` that exists (the same month and day
number in year `y`), by the zero-based day of the year `w` of the later day. -/
theorem day_year_before (y m d : Int) (h : ValidDate (y + 1) m d) :
    ∃ w, 0 ≤ w ∧ w < 365 + leapFlag (y + 1) ∧
      MakeDay (y + 1) (m - 1) d = DayFromYear (y + 1) + w ∧
      MakeDay y (m - 1) d = DayFromYear (y + 1) + w - 365 -
        (if 59 + leapFlag (y + 1) ≤ w then leapFlag (y + 1) else leapFlag y) := by
  have hk := MakeDay_month (y + 1) m d h.1 h.2.1
  have hf := dayOfYear_facts (y + 1) m d h
  have hn := MakeDay_next_year y m d h.1 h.2.1
  refine ⟨monthStart (leapFlag (y + 1)) (m - 1) + d - 1, hf.1, hf.2.1, by omega, ?_⟩
  by_cases h3 : 3 ≤ m
  · rw [if_pos h3] at hn
    rw [if_pos (hf.2.2.1.mp h3)]
    omega
  · rw [if_neg h3] at hn
    rw [if_neg (fun hc => h3 (hf.2.2.1.mpr hc))]
    omega

theorem leapFlag_bounds (y : Int) : 0 ≤ leapFlag y ∧ leapFlag y ≤ 1 := by
  have h := leapFlag_cases y
  omega

/-- A purchase one day after "one year before today" has its limit after today. -/
theorem limit_after_today (Y M D y m d : Int) (hT : ValidDate (Y + 1) M D)
    (hP : ValidDate y m d) (h : MakeDay y (m - 1) d = MakeDay Y (M - 1) D + 1) :
    MakeDay (Y + 1) (M - 1) D < MakeDay (y + 1) (m - 1) d := by
  obtain ⟨w, hw0, hw1, hT1, ha⟩ := day_year_before Y M D hT
  obtain ⟨v, hv0, hv1, hP1, hE, hfeb⟩ := day_in_year y m d hP
  have hin := MakeDay_in_year y m d hP
  clear hT hP hfeb
  have hs0 := DayFromYear_succ_flag Y
  have hs1 := DayFromYear_succ_flag (Y + 1)
  have hl0 := leapFlag_bounds Y
  have hl1 := leapFlag_bounds (Y + 1)
  have hc := leapFlag_consecutive Y
  by_cases hlt : MakeDay y (m - 1) d < DayFromYear (Y + 1)
  · have hy : y = Y := year_unique _ _ _ hin ⟨by omega, hlt⟩
    subst hy
    omega
  · have hy : y = Y + 1 := year_unique _ _ _ hin ⟨by omega, by omega⟩
    subst hy
    omega

/-- A purchase one day before "one year before today" has its limit before today, except
that the limit of 29 February is 1 March, which is then today. -/
theorem limit_before_today (Y M D y m d : Int) (hT : ValidDate (Y + 1) M D)
    (hP : ValidDate y m d) (h : MakeDay y (m - 1) d = MakeDay Y (M - 1) D - 1) :
    (MakeDay (y + 1) (m - 1) d < MakeDay (Y + 1) (M - 1) D ∧ ¬ (m = 2 ∧ d = 29)) ∨
      (MakeDay (y + 1) (m - 1) d = MakeDay (Y + 1) (M - 1) D ∧ m = 2 ∧ d = 29) := by
  obtain ⟨w, hw0, hw1, hT1, ha⟩ := day_year_before Y M D hT
  obtain ⟨v, hv0, hv1, hP1, hE, hfeb⟩ := day_in_year y m d hP
  have hin := MakeDay_in_year y m d hP
  have hl0 := leapFlag_bounds Y
  have hl1 := leapFlag_bounds (Y + 1)
  have hlm := leapFlag_bounds (Y - 1)
  have key : (MakeDay (y + 1) (m - 1) d < MakeDay (Y + 1) (M - 1) D ∧
        ¬ (leapFlag y = 1 ∧ v = 59)) ∨
      (MakeDay (y + 1) (m - 1) d = MakeDay (Y + 1) (M - 1) D ∧ leapFlag y = 1 ∧ v = 59) := by
    clear hT hP hfeb
    have hs0 := DayFromYear_succ_flag Y
    have hsm := DayFromYear_succ_flag (Y - 1)
    have hc := leapFlag_consecutive Y
    have e1 : Y - 1 + 1 = Y := by omega
    rw [e1] at hsm
    by_cases hlt : DayFromYear Y ≤ MakeDay y (m - 1) d
    · have hy : y = Y := year_unique _ _ _ hin ⟨hlt, by omega⟩
      subst hy
      omega
    · have hy : y = Y - 1 := year_unique _ _ _ hin ⟨by omega, by rw [e1]; omega⟩
      have hDF : DayFromYear y = DayFromYear (Y - 1) := by rw [hy]
      have hLy : leapFlag y = leapFlag (Y - 1) := by rw [hy]
      have hLy1 : leapFlag (y + 1) = leapFlag Y := by rw [hy, e1]
      omega
  rcases key with ⟨k1, k2⟩ | ⟨k1, k2⟩
  · exact Or.inl ⟨k1, fun hc => k2 (hfeb.mp hc)⟩
  · exact Or.inr ⟨k1, hfeb.mpr k2⟩

/-- The limit lemma for a purchase one day after "one year before today", with today
given by its year `Y`, zero-based month `M` and day `D`. -/
theorem limit_after (Y M D y m d : Int) (hT : ValidDate Y (M + 1) D) (hP : ValidDate y m d)
    (h : MakeDay y (m - 1) d = MakeDay (Y - 1) M D + 1) :
    MakeDay Y M D < MakeDay (y + 1) (m - 1) d := by
  have e1 : Y - 1 + 1 = Y := by omega
  have e2 : M + 1 - 1 = M := by omega
  have L := limit_after_today (Y - 1) (M + 1) D y m d (by rw [e1]; exact hT) hP
    (by rw [e2]; exact h)
  rw [e1, e2] at L
  exact L

/-- The limit lemma for a purchase one day before "one year before today". -/
theorem limit_before (Y M D y m d : Int) (hT : ValidDate Y (M + 1) D) (hP : ValidDate y m d)
    (h : MakeDay y (m - 1) d = MakeDay (Y - 1) M D - 1) :
    (MakeDay (y + 1) (m - 1) d < MakeDay Y M D ∧ ¬ (m = 2 ∧ d = 29)) ∨
      (MakeDay (y + 1) (m - 1) d = MakeDay Y M D ∧ m = 2 ∧ d = 29) := by
  have e1 : Y - 1 + 1 = Y := by omega
  have e2 : M + 1 - 1 = M := by omega
  have L := limit_before_today (Y - 1) (M + 1) D y m d (by rw [e1]; exact hT) hP
    (by rw [e2]; exact h)
  rw [e1, e2] at L
  exact L

/-- On the day of the limit itself the indicator is shown only at local midnight: for a
purchase whose month and day are those of today and whose year is the year before, the
display is `inline-block` exactly when no time of the day has passed. -/
theorem limit_day_display (env : Env) (hoy : Int) (v prior : String) (y m d : Int)
    (h : parseISODate (v ++ "T00:00:00") = some (y, m, d))
    (hy : YearFromTime (LocalTime env hoy) = y + 1)
    (hm : MonthFromTime (LocalTime env hoy) = m - 1)
    (hd : DateFromTime (LocalTime env hoy) = d) :
    (checkGarantia env hoy ⟨some v, some prior⟩).garantiaStatus =
      some (if TimeWithinDay (LocalTime env hoy) = 0 then "inline-block" else "none") := by
  have hf := (MakeDay_of_fields (LocalTime env hoy)).2
  rw [hy, hm, hd] at hf
  rw [checkGarantia_of_date env hoy v prior y m d h, hf]
  simp

/-- C1 (the code at the failing input).  In a zone five hours behind UTC, at 10:00 of
15 June 2025, a purchase date of 15 June 2024 (exactly one year before today) leaves the
indicator hidden: the limit is 15 June 2025 at 00:00, which is before `hoy`. -/
theorem checkGarantia_limit_day_hidden :
    parseISODate ("2024-06-15" ++ "T00:00:00") = some (2024, 6, 15) ∧
    YearFromTime (LocalTime lima 1749999600000) = 2025 ∧
    MonthFromTime (LocalTime lima 1749999600000) = 5 ∧
    DateFromTime (LocalTime lima 1749999600000) = 15 ∧
    TimeWithinDay (LocalTime lima 1749999600000) = 10 * 3600000 ∧
    fechaLimite lima "2024-06-15" = some 1749963600000 ∧
    checkGarantia lima 1749999600000 ⟨some "2024-06-15", some "inline-block"⟩ =
      ⟨some "2024-06-15", some "none"⟩ := by
  decide

/-- C9 (the code at the failing input).  In a zone five hours behind UTC, for the
purchase date 15 June 2023 the purchase date at local midnight is 2023-06-15T05:00Z and
the limit date that `checkGarantia` computes is 2024-06-15T05:00Z: 366 days later, not
the 365 days of the warranty, because 29 February 2024 lies in between. -/
theorem fechaLimite_not_365_days :
    parseISODate ("2023-06-15" ++ "T00:00:00") = some (2023, 6, 15) ∧
    fechaCompra lima "2023-06-15" = some 1686805200000 ∧
    fechaLimite lima "2023-06-15" = some 1718427600000 ∧
    (1718427600000 : Int) = 1686805200000 + 366 * msPerDay ∧
    fechaLimite lima "2023-06-15" ≠ some (1686805200000 + 365 * msPerDay) := by
  decide

/-- Length of the step from `fechaCompra` to `fechaLimite` in a local zone with a fixed
offset from UTC: the limit date is local midnight of the same month and day number of the
next year, 365 days after the purchase date at local midnight, and 366 days after it when
a 29 February lies in between, that is for a purchase in January or February of a leap
year or from March on in the year before a leap year. -/
theorem fechaLimite_year_length (env : Env) (v : String) (y m d : Int)
    (h : parseISODate (v ++ "T00:00:00") = some (y, m, d)) :
    ∃ t, fechaCompra env v = some t ∧ t = MakeDay y (m - 1) d * msPerDay - env.tza ∧
      fechaLimite env v = some (t +
        (if (m ≤ 2 ∧ DaysInYear y = 366) ∨ (3 ≤ m ∧ DaysInYear (y + 1) = 366)
          then 366 else 365) * msPerDay) := by
  obtain ⟨_, _, hm1, hm2, _, _⟩ := parseISODate_valid _ _ _ _ h
  refine ⟨_, fechaCompra_eq env v y m d h, rfl, ?_⟩
  rw [fechaLimite_eq env v y m d h, MakeDay_next_year y m d hm1 hm2]
  have hl0 := leapFlag_cases y
  have hl1 := leapFlag_cases (y + 1)
  congr 1
  generalize MakeDay y (m - 1) d = P
  generalize leapFlag y = a at hl0 ⊢
  generalize leapFlag (y + 1) = b at hl1 ⊢
  generalize DaysInYear y = c at hl0 ⊢
  generalize DaysInYear (y + 1) = e at hl1 ⊢
  unfold msPerDay
  split_ifs <;> omega

/-- C7 (counterexample).  In a zone five hours behind UTC, at exactly 00:00:00.000 of
1 March 2025, the purchase date 29 February 2024 is one day before 1 March 2024, the day
one year before today, and the indicator is shown: the limit of 29 February 2024 is
1 March 2025 at 00:00, which equals `hoy`. -/
theorem checkGarantia_leap_day_shown :
    YearFromTime (LocalTime lima 1740805200000) = 2025 ∧
    MonthFromTime (LocalTime lima 1740805200000) = 2 ∧
    DateFromTime (LocalTime lima 1740805200000) = 1 ∧
    TimeWithinDay (LocalTime lima 1740805200000) = 0 ∧
    parseISODate ("2024-02-29" ++ "T00:00:00") = some (2024, 2, 29) ∧
    MakeDay 2024 (2 - 1) 29 = oneYearBefore lima 1740805200000 - 1 ∧
    checkGarantia lima 1740805200000 ⟨some "2024-02-29", some "none"⟩ =
      ⟨some "2024-02-29", some "inline-block"⟩ := by
  decide

/-- A purchase one day after the day one year before today leaves the indicator shown. -/
theorem day_after_display (env : Env) (hoy : Int) (v p : String) (y m d : Int)
    (h : parseISODate (v ++ "T00:00:00") = some (y, m, d))
    (hb : MakeDay y (m - 1) d = oneYearBefore env hoy + 1) :
    (checkGarantia env hoy ⟨some v, some p⟩).garantiaStatus = some "inline-block" := by
  obtain ⟨hv, hd⟩ := MakeDay_of_fields (LocalTime env hoy)
  have hP := (parseISODate_valid _ _ _ _ h).2.2
  have L := limit_after _ _ _ y m d hv hP hb
  have Lc : Day (LocalTime env hoy) < MakeDay (y + 1) (m - 1) d := lt_of_eq_of_lt hd.symm L
  rw [checkGarantia_of_date env hoy v p y m d h, if_pos (Or.inl Lc)]

/-- A purchase one day before the day one year before today leaves the indicator hidden,
except that for a purchase on 29 February the limit is today, 1 March, and the indicator
is shown at exactly local midnight. -/
theorem day_before_display (env : Env) (hoy : Int) (v p : String) (y m d : Int)
    (h : parseISODate (v ++ "T00:00:00") = some (y, m, d))
    (hb : MakeDay y (m - 1) d = oneYearBefore env hoy - 1) :
    (checkGarantia env hoy ⟨some v, some p⟩).garantiaStatus =
      some (if m = 2 ∧ d = 29 ∧ TimeWithinDay (LocalTime env hoy) = 0
        then "inline-block" else "none") := by
  obtain ⟨hv, hd⟩ := MakeDay_of_fields (LocalTime env hoy)
  have hP := (parseISODate_valid _ _ _ _ h).2.2
  have L := limit_before _ _ _ y m d hv hP hb
  rw [checkGarantia_of_date env hoy v p y m d h]
  rcases L with ⟨k1, k2⟩ | ⟨k1, k2, k3⟩
  · have k1c : MakeDay (y + 1) (m - 1) d < Day (LocalTime env hoy) := lt_of_lt_of_eq k1 hd
    rw [if_neg (by omega), if_neg (fun hc => k2 ⟨hc.1, hc.2.1⟩)]
  · have k1c : MakeDay (y + 1) (m - 1) d = Day (LocalTime env hoy) := k1.trans hd
    by_cases ht : TimeWithinDay (LocalTime env hoy) = 0
    · rw [if_pos (Or.inr ⟨k1c.symm, ht⟩), if_pos ⟨k2, k3, ht⟩]
    · rw [if_neg (by omega), if_neg (fun hc => ht hc.2.2)]

/-- C7 (amended).  At every moment `hoy`, with both elements present: every well-formed
purchase date one day after the day one year before today (one year minus one day before
today) leaves the indicator shown; and every well-formed purchase date one day before the
day one year before today (one year and one day before today) that is not 29 February
leaves it hidden.  The two halves hold independently of each other. -/
theorem checkGarantia_off_boundary (env : Env) (hoy : Int) :
    (∀ (v p : String) (y m d : Int),
        parseISODate (v ++ "T00:00:00") = some (y, m, d) →
        MakeDay y (m - 1) d = oneYearBefore env hoy + 1 →
        (checkGarantia env hoy ⟨some v, some p⟩).garantiaStatus = some "inline-block") ∧
    (∀ (v p : String) (y m d : Int),
        parseISODate (v ++ "T00:00:00") = some (y, m, d) →
        MakeDay y (m - 1) d = oneYearBefore env hoy - 1 →
        ¬ (m = 2 ∧ d = 29) →
        (checkGarantia env hoy ⟨some v, some p⟩).garantiaStatus = some "none") := by
  constructor
  · intro v p y m d h hb
    exact day_after_display env hoy v p y m d h hb
  · intro v p y m d h hb hnf
    rw [day_before_display env hoy v p y m d h hb, if_neg (fun hc => hnf ⟨hc.1, hc.2.1⟩)]

/-- Witness of C7 (amended).  At 10:00 of 1 March 2025, where the day one year and one day
before today is 29 February 2024, the purchase date 2 March 2024 leaves the indicator
shown; at 10:00 of 15 June 2025 the purchase date 16 June 2024 leaves it shown and the
purchase date 14 June 2024 leaves it hidden. -/
theorem checkGarantia_off_boundary_witness :
    YearFromTime (LocalTime lima 1740841200000) = 2025 ∧
    MonthFromTime (LocalTime lima 1740841200000) = 2 ∧
    DateFromTime (LocalTime lima 1740841200000) = 1 ∧
    TimeWithinDay (LocalTime lima 1740841200000) = 10 * 3600000 ∧
    parseISODate ("2024-03-02" ++ "T00:00:00") = some (2024, 3, 2) ∧
    MakeDay 2024 (3 - 1) 2 = oneYearBefore lima 1740841200000 + 1 ∧
    (checkGarantia lima 1740841200000 ⟨some "2024-03-02", some "none"⟩).garantiaStatus =
      some "inline-block" ∧
    parseISODate ("2024-06-16" ++ "T00:00:00") = some (2024, 6, 16) ∧
    MakeDay 2024 (6 - 1) 16 = oneYearBefore lima 1749999600000 + 1 ∧
    (checkGarantia lima 1749999600000 ⟨some "2024-06-16", some "none"⟩).garantiaStatus =
      some "inline-block" ∧
    parseISODate ("2024-06-14" ++ "T00:00:00") = some (2024, 6, 14) ∧
    MakeDay 2024 (6 - 1) 14 = oneYearBefore lima 1749999600000 - 1 ∧
    ¬ ((6 : Int) = 2 ∧ (14 : Int) = 29) ∧
    (checkGarantia lima 1749999600000 ⟨some "2024-06-14", some "inline-block"⟩).garantiaStatus =
      some "none" :=
  ⟨by decide, by decide, by decide, by decide, by decide, by decide,
    (checkGarantia_off_boundary lima 1740841200000).1 "2024-03-02" "none" 2024 3 2
      (by decide) (by decide),
    by decide, by decide,
    (checkGarantia_off_boundary lima 1749999600000).1 "2024-06-16" "none" 2024 6 16
      (by decide) (by decide),
    by decide, by decide, by decide,
    (checkGarantia_off_boundary lima 1749999600000).2 "2024-06-14" "inline-block" 2024 6 14
      (by decide) (by decide) (by decide)⟩

/-- C10.  Characterisation of `checkGarantia`: when both elements exist, whatever the
display was before, afterwards the display is `inline-block` exactly when the value is not
empty and the limit date (the value read at local midnight, with the year increased by
one) is a valid date that is greater than or equal to `hoy`; otherwise it is `none`.  The
value of the input is left as it was. -/
theorem checkGarantia_characterisation (env : Env) (hoy : Int) (v prior : String) :
    ((checkGarantia env hoy ⟨some v, some prior⟩).garantiaStatus = some "inline-block" ↔
        v ≠ "" ∧ ∃ l, fechaLimite env v = some l ∧ hoy ≤ l) ∧
      ((checkGarantia env hoy ⟨some v, some prior⟩).garantiaStatus = some "inline-block" ∨
        (checkGarantia env hoy ⟨some v, some prior⟩).garantiaStatus = some "none") ∧
      (checkGarantia env hoy ⟨some v, some prior⟩).garantiaStatus =
        some (if v ≠ "" ∧ dateGe (fechaLimite env v) hoy = true then "inline-block" else "none") ∧
      (checkGarantia env hoy ⟨some v, some prior⟩).fechaCompraInput = some v := by
  by_cases hv : v = ""
  · subst hv
    simp [checkGarantia]
  · rw [checkGarantia_nonempty env hoy v prior hv]
    cases hl : fechaLimite env v with
    | none => simp [dateGe, hv]
    | some l =>
      by_cases hle : hoy ≤ l
      · simp [dateGe, hv, hle]
      · simp [dateGe, hv, hle]

/-- The page after a run of `checkGarantia` does not depend on the display before it. -/
theorem checkGarantia_prior (env : Env) (hoy : Int) (v p q : String) :
    checkGarantia env hoy ⟨some v, some p⟩ = checkGarantia env hoy ⟨some v, some q⟩ := by
  rfl

theorem onChange_eq (env : Env) (hoy : Int) (v0 p v : String) :
    onChange env hoy ⟨some v0, some p⟩ v = checkGarantia env hoy ⟨some v, some p⟩ := rfl

theorem checkGarantia_shape (env : Env) (hoy : Int) (v p : String) :
    ∃ q, checkGarantia env hoy ⟨some v, some p⟩ = ⟨some v, some q⟩ := by
  unfold checkGarantia
  simp only
  split_ifs <;> exact ⟨_, rfl⟩

theorem foldl_onChange_shape (env : Env) (hoy : Int) (vs : List String) (v0 p : String) :
    ∃ v1 q, vs.foldl (onChange env hoy) ⟨some v0, some p⟩ = ⟨some v1, some q⟩ := by
  induction vs generalizing v0 p with
  | nil => exact ⟨v0, p, rfl⟩
  | cons a as ih =>
    obtain ⟨q, hq⟩ := checkGarantia_shape env hoy a p
    rw [List.foldl_cons, onChange_eq, hq]
    exact ih a q

/-- C8.  No accumulated state: at a fixed moment `hoy`, after any sequence of values
entered one after another (each followed by `checkGarantia`) and ending with `v`, the
page is the one obtained by entering `v` alone, from any display and any value held
before; and running `checkGarantia` a second time changes nothing. -/
theorem checkGarantia_last_value (env : Env) (hoy : Int) (vs : List String)
    (v v0 p w0 q : String) (page : Page) :
    (vs ++ [v]).foldl (onChange env hoy) ⟨some v0, some p⟩ =
        onChange env hoy ⟨some w0, some q⟩ v ∧
      checkGarantia env hoy (checkGarantia env hoy page) = checkGarantia env hoy page := by
  constructor
  · obtain ⟨v1, p1, h1⟩ := foldl_onChange_shape env hoy vs v0 p
    rw [List.foldl_append, h1, List.foldl_cons, List.foldl_nil, onChange_eq, onChange_eq]
    exact checkGarantia_prior env hoy v p1 q
  · obtain ⟨i, s⟩ := page
    cases i with
    | none => rfl
    | some a =>
      cases s with
      | none => rfl
      | some b =>
        obtain ⟨c, hc⟩ := checkGarantia_shape env hoy a b
        rw [hc, checkGarantia_prior env hoy a c b]
        exact hc

end Garantia

namespace Autocomplete

/-! ## Facts about the `blur` listener -/

theorem trim_of_all_space (s : String) (h : ∀ c ∈ s.data, isTrimChar c = true) :
    trim s = "" := by
  have h1 : s.data.dropWhile isTrimChar = [] := List.dropWhile_eq_nil_iff.mpr h
  unfold trim
  rw [h1]
  rfl

theorem length_pos_iff (s : String) : s.length > 0 ↔ s ≠ "" := by
  obtain ⟨l⟩ := s
  cases l with
  | nil => simp
  | cons a as =>
    constructor
    · intro _ hc
      exact absurd (congrArg String.data hc) (by simp)
    · intro _
      simp [String.length]

/-- With an identifier that is empty after trimming, the listener clears the fields and
issues no request. -/
theorem onBlur_empty (d : Doc) (h : trim d.claveInput = "") :
    onBlur d = (clearClientFields d, none) := by
  unfold onBlur
  simp only [h]
  rfl

/-- With an identifier that is not empty after trimming, the listener issues one request
and keeps the trimmed identifier for its callbacks. -/
theorem onBlur_nonempty (d : Doc) (h : trim d.claveInput ≠ "") :
    onBlur d = ({ d with requests := d.requests ++
      ["/servicios/api/buscar_cliente/?clave=" ++ trim d.claveInput] }, some (trim d.claveInput)) := by
  unfold onBlur
  simp only [(length_pos_iff _).mpr h, if_true]

theorem blurEvent_empty (r : FetchResult) (d : Doc) (h : trim d.claveInput = "") :
    blurEvent r d = clearClientFields d := by
  unfold blurEvent
  rw [onBlur_empty d h]

theorem blurEvent_nonempty (r : FetchResult) (d : Doc) (h : trim d.claveInput ≠ "") :
    blurEvent r d = onSettled (trim d.claveInput) r { d with requests := d.requests ++
      ["/servicios/api/buscar_cliente/?clave=" ++ trim d.claveInput] } := by
  unfold blurEvent
  rw [onBlur_nonempty d h]

/-- The loop over the keys changes every existing field and no other. -/
theorem existing_forEach (g : Field → Field) (fs : Fields) :
    (fs.forEach g).existing = fs.existing.map g := by
  obtain ⟨f1, f2, f3, f4, f5⟩ := fs
  cases f1 <;> cases f2 <;> cases f3 <;> cases f4 <;> cases f5 <;> rfl

/-- After `clearClientFields` every existing field is empty and editable. -/
theorem existing_clear (d : Doc) :
    ∀ f ∈ (clearClientFields d).fields.existing, f.value = "" ∧ f.readOnly = false := by
  intro f hf
  unfold clearClientFields at hf
  rw [existing_forEach] at hf
  obtain ⟨f0, _, rfl⟩ := List.mem_map.mp hf
  exact ⟨rfl, rfl⟩

/-- Strings without line breaks are not changed by stripping newlines. -/
theorem stripNewlines_of_none (cs : List Char) (h : ∀ c ∈ cs, isNewline c = false) :
    stripNewlines cs = cs := by
  unfold stripNewlines
  rw [List.filter_eq_self]
  intro c hc
  simp [h c hc]

theorem dropWhile_of_startsClean (cs : List Char) (h : startsClean cs = true) :
    cs.dropWhile isASCIIWhitespace = cs := by
  cases cs with
  | nil => rfl
  | cons c rest =>
    have hc : isASCIIWhitespace c = false := by simpa [startsClean] using h
    simp [List.dropWhile, hc]

theorem normalizeFrom_of_none (cs : List Char) (h : ∀ c ∈ cs, c.toNat ≠ 13) :
    normalizeFrom false cs = cs := by
  induction cs with
  | nil => rfl
  | cons c rest ih =>
    have hc : c.toNat ≠ 13 := h c (List.mem_cons_self _ _)
    have hr : ∀ x ∈ rest, x.toNat ≠ 13 := fun x hx => h x (List.mem_cons_of_mem _ hx)
    unfold normalizeFrom
    rw [if_neg hc, if_neg (fun hf => absurd hf.2 (by simp)), ih hr]

/-- A string that the control keeps as it is, is what the control holds after the
assignment. -/
theorem sanitize_of_kept (k : InputKind) (s : String) (h : KeptAsIs k s) : sanitize k s = s := by
  cases k with
  | text =>
    unfold sanitize
    simp only
    rw [stripNewlines_of_none s.data h]
  | email =>
    obtain ⟨h1, h2, h3⟩ := h
    unfold sanitize
    simp only
    rw [stripNewlines_of_none s.data h1]
    unfold stripASCIIWhitespace
    rw [dropWhile_of_startsClean _ h2, dropWhile_of_startsClean _ h3, List.reverse_reverse]
  | textarea =>
    unfold sanitize normalizeNewlines
    simp only
    rw [normalizeFrom_of_none s.data h]

theorem catchCallback_eq (clave : String) (error : JSError) (d : Doc) :
    catchCallback clave error d =
      { claveInput := clave
        fields := (clearClientFields d).fields
        kinds := d.kinds
        alerts := d.alerts ++ ["Ocurrió un error al intentar la búsqueda."]
        errors := d.errors ++ [error]
        requests := d.requests } := rfl

theorem thenCallback_not_found (clave : String) (data : Data) (d : Doc)
    (he : ToBoolean data.existe = false) :
    thenCallback clave (some data) d = .ok
      { claveInput := clave
        fields := (clearClientFields d).fields
        kinds := d.kinds
        alerts := d.alerts ++ ["Cliente no encontrado. Por favor, ingrese sus datos completos."]
        errors := d.errors
        requests := d.requests } := by
  unfold thenCallback
  simp only [he]
  rfl

theorem thenCallback_found (clave : String) (data : Data) (d : Doc) (f1 f2 f3 f4 f5 : Field)
    (he : ToBoolean data.existe = true)
    (hf : d.fields = ⟨some f1, some f2, some f3, some f4, some f5⟩) :
    thenCallback clave (some data) d = .ok
      { claveInput := d.claveInput
        fields := ⟨some ⟨sanitize d.kinds.nombre (toValue data.nombre), true⟩,
          some ⟨sanitize d.kinds.direccion (toValue data.direccion), true⟩,
          some ⟨sanitize d.kinds.telefono (toValue data.telefono), true⟩,
          some ⟨sanitize d.kinds.celular (toValue data.celular), true⟩,
          some ⟨sanitize d.kinds.email (toValue data.email), true⟩⟩
        kinds := d.kinds
        alerts := d.alerts ++
          ["Cliente " ++ ToString data.nombre ++ " encontrado. Autocompletando datos."]
        errors := d.errors
        requests := d.requests } := by
  obtain ⟨c, fs, ks, a, e, r⟩ := d
  subst hf
  unfold thenCallback
  simp only [he]
  rfl

/-- When a field is missing and the client is found, the callback raises an exception. -/
theorem thenCallback_found_missing (clave : String) (data : Data) (d : Doc)
    (he : ToBoolean data.existe = true)
    (hf : d.fields.existing.length < 5) :
    ∃ d2, thenCallback clave (some data) d = .error d2 := by
  obtain ⟨c, ⟨f1, f2, f3, f4, f5⟩, ks, a, e, r⟩ := d
  unfold thenCallback
  simp only [he]
  cases f1 <;> cases f2 <;> cases f3 <;> cases f4 <;> cases f5 <;>
    first
    | exact ⟨_, rfl⟩
    | exact absurd hf (by simp [Fields.existing, Fields.toList])

theorem all_exist_of_length (fs : Fields) (h : ¬ fs.existing.length < 5) :
    ∃ f1 f2 f3 f4 f5, fs = ⟨some f1, some f2, some f3, some f4, some f5⟩ := by
  obtain ⟨f1, f2, f3, f4, f5⟩ := fs
  cases f1 <;> cases f2 <;> cases f3 <;> cases f4 <;> cases f5 <;>
    first
    | exact ⟨_, _, _, _, _, rfl⟩
    | exact absurd (by simp [Fields.existing, Fields.toList]) h

theorem onSettled_not_found (clave : String) (data : Data) (d : Doc)
    (he : ToBoolean data.existe = false) :
    onSettled clave (.json (some data)) d =
      { claveInput := clave
        fields := (clearClientFields d).fields
        kinds := d.kinds
        alerts := d.alerts ++ ["Cliente no encontrado. Por favor, ingrese sus datos completos."]
        errors := d.errors
        requests := d.requests } := by
  unfold onSettled
  simp only
  rw [thenCallback_not_found clave data d he]

/-! ## The claims about the `blur` listener -/

/-- C2 (counterexample).  Text inputs, the identifier `20123456789`, a response with
`existe` true whose `nombre` is a string with a line break and which has no `direccion`:
after the continuation the field `nombre` holds `AnaLuisa`, which is not the value of the
response, and the field `direccion` holds the text `undefined`. -/
theorem found_value_differs_from_response :
    trim "20123456789" ≠ "" ∧
    (blurEvent (.json (some ⟨.bool true, .str "Ana\nLuisa", .undefined, .str "123",
        .str "999", .str "a@b.c"⟩))
      ⟨"20123456789", ⟨some ⟨"", false⟩, some ⟨"", false⟩, some ⟨"", false⟩, some ⟨"", false⟩,
        some ⟨"", false⟩⟩, textKinds, [], [], []⟩).fields =
      ⟨some ⟨"AnaLuisa", true⟩, some ⟨"undefined", true⟩, some ⟨"123", true⟩,
        some ⟨"999", true⟩, some ⟨"a@b.c", true⟩⟩ ∧
    "AnaLuisa" ≠ "Ana\nLuisa" := by
  decide

/-- C2 (amended).  Match applied: with an identifier that is not empty after trimming,
every parsed response whose `existe` is true, and all five field elements present, after
the continuation each field holds the corresponding value of the response as the
assignment to `value` stores it (converted to a string and sanitised by the control), and
each of the five fields is read-only; hence each field holds the value of the response
itself whenever the five values are strings that their controls keep as they are. -/
theorem found_fills_and_locks (d : Doc) (data : Data) (f1 f2 f3 f4 f5 : Field)
    (hk : trim d.claveInput ≠ "")
    (he : ToBoolean data.existe = true)
    (hf : d.fields = ⟨some f1, some f2, some f3, some f4, some f5⟩) :
    (blurEvent (.json (some data)) d).fields =
        ⟨some ⟨sanitize d.kinds.nombre (toValue data.nombre), true⟩,
          some ⟨sanitize d.kinds.direccion (toValue data.direccion), true⟩,
          some ⟨sanitize d.kinds.telefono (toValue data.telefono), true⟩,
          some ⟨sanitize d.kinds.celular (toValue data.celular), true⟩,
          some ⟨sanitize d.kinds.email (toValue data.email), true⟩⟩ ∧
      ∀ n di t c e : String,
        data.nombre = .str n → data.direccion = .str di → data.telefono = .str t →
        data.celular = .str c → data.email = .str e →
        KeptAsIs d.kinds.nombre n → KeptAsIs d.kinds.direccion di →
        KeptAsIs d.kinds.telefono t → KeptAsIs d.kinds.celular c →
        KeptAsIs d.kinds.email e →
        (blurEvent (.json (some data)) d).fields =
          ⟨some ⟨n, true⟩, some ⟨di, true⟩, some ⟨t, true⟩, some ⟨c, true⟩, some ⟨e, true⟩⟩ := by
  have key : (blurEvent (.json (some data)) d).fields =
      ⟨some ⟨sanitize d.kinds.nombre (toValue data.nombre), true⟩,
        some ⟨sanitize d.kinds.direccion (toValue data.direccion), true⟩,
        some ⟨sanitize d.kinds.telefono (toValue data.telefono), true⟩,
        some ⟨sanitize d.kinds.celular (toValue data.celular), true⟩,
        some ⟨sanitize d.kinds.email (toValue data.email), true⟩⟩ := by
    rw [blurEvent_nonempty _ d hk]
    unfold onSettled
    simp only
    rw [thenCallback_found _ data _ f1 f2 f3 f4 f5 he (by exact hf)]
  refine ⟨key, ?_⟩
  intro n di t c e hn hdi ht hc hem k1 k2 k3 k4 k5
  rw [key, hn, hdi, ht, hc, hem]
  simp only [toValue, ToString, sanitize_of_kept _ _ k1, sanitize_of_kept _ _ k2,
    sanitize_of_kept _ _ k3, sanitize_of_kept _ _ k4, sanitize_of_kept _ _ k5]

/-- Witness of C2 (amended): a found client, all five fields present, text inputs. -/
theorem found_fills_and_locks_witness :
    trim exampleDoc.claveInput ≠ "" ∧
    ToBoolean exampleData.existe = true ∧
    ((blurEvent (.json (some exampleData)) exampleDoc).fields =
        ⟨some ⟨sanitize exampleDoc.kinds.nombre (toValue exampleData.nombre), true⟩,
          some ⟨sanitize exampleDoc.kinds.direccion (toValue exampleData.direccion), true⟩,
          some ⟨sanitize exampleDoc.kinds.telefono (toValue exampleData.telefono), true⟩,
          some ⟨sanitize exampleDoc.kinds.celular (toValue exampleData.celular), true⟩,
          some ⟨sanitize exampleDoc.kinds.email (toValue exampleData.email), true⟩⟩ ∧
      ∀ n di t c e : String,
        exampleData.nombre = .str n → exampleData.direccion = .str di →
        exampleData.telefono = .str t → exampleData.celular = .str c →
        exampleData.email = .str e →
        KeptAsIs exampleDoc.kinds.nombre n → KeptAsIs exampleDoc.kinds.direccion di →
        KeptAsIs exampleDoc.kinds.telefono t → KeptAsIs exampleDoc.kinds.celular c →
        KeptAsIs exampleDoc.kinds.email e →
        (blurEvent (.json (some exampleData)) exampleDoc).fields =
          ⟨some ⟨n, true⟩, some ⟨di, true⟩, some ⟨t, true⟩, some ⟨c, true⟩, some ⟨e, true⟩⟩) ∧
    (blurEvent (.json (some exampleData)) exampleDoc).fields =
      ⟨some ⟨"Ana", true⟩, some ⟨"Calle 1", true⟩, some ⟨"123", true⟩, some ⟨"999", true⟩,
        some ⟨"a@b.c", true⟩⟩ :=
  ⟨by decide, by decide,
    found_fills_and_locks exampleDoc exampleData ⟨"x", false⟩ ⟨"", false⟩ ⟨"", true⟩
      ⟨"y", false⟩ ⟨"", false⟩ (by decide) (by decide) rfl,
    (found_fills_and_locks exampleDoc exampleData ⟨"x", false⟩ ⟨"", false⟩ ⟨"", true⟩
      ⟨"y", false⟩ ⟨"", false⟩ (by decide) (by decide) rfl).2 "Ana" "Calle 1" "123" "999"
      "a@b.c" rfl rfl rfl rfl rfl (by decide) (by decide) (by decide) (by decide) (by decide)⟩

/-- C3.  No match: with an identifier that is not empty after trimming and a parsed
response whose `existe` is false, whatever the fields held before, after the continuation
every existing field is empty and editable, no field element appears or disappears, and
the identifier input holds the trimmed value of what was typed. -/
theorem not_found_clears (d : Doc) (data : Data)
    (hk : trim d.claveInput ≠ "")
    (he : ToBoolean data.existe = false) :
    (∀ f ∈ (blurEvent (.json (some data)) d).fields.existing,
        f.value = "" ∧ f.readOnly = false) ∧
      (blurEvent (.json (some data)) d).fields =
        d.fields.forEach (fun _ => ⟨"", false⟩) ∧
      (blurEvent (.json (some data)) d).claveInput = trim d.claveInput := by
  rw [blurEvent_nonempty _ d hk]
  unfold onSettled
  simp only
  rw [thenCallback_not_found _ data _ he]
  exact ⟨existing_clear _, rfl, rfl⟩

/-- Witness of C3: a response without a match, one field element missing. -/
theorem not_found_clears_witness :
    trim " 20123456789 " ≠ "" ∧
    ((∀ f ∈ (blurEvent (.json (some ⟨.bool false, .undefined, .undefined, .undefined,
          .undefined, .undefined⟩))
        ⟨" 20123456789 ", ⟨some ⟨"x", true⟩, none, some ⟨"", true⟩, some ⟨"y", false⟩,
          some ⟨"", false⟩⟩, textKinds, [], [], []⟩).fields.existing,
        f.value = "" ∧ f.readOnly = false) ∧
      (blurEvent (.json (some ⟨.bool false, .undefined, .undefined, .undefined,
          .undefined, .undefined⟩))
        ⟨" 20123456789 ", ⟨some ⟨"x", true⟩, none, some ⟨"", true⟩, some ⟨"y", false⟩,
          some ⟨"", false⟩⟩, textKinds, [], [], []⟩).fields =
        Fields.forEach (fun _ => ⟨"", false⟩)
          ⟨some ⟨"x", true⟩, none, some ⟨"", true⟩, some ⟨"y", false⟩, some ⟨"", false⟩⟩ ∧
      (blurEvent (.json (some ⟨.bool false, .undefined, .undefined, .undefined,
          .undefined, .undefined⟩))
        ⟨" 20123456789 ", ⟨some ⟨"x", true⟩, none, some ⟨"", true⟩, some ⟨"y", false⟩,
          some ⟨"", false⟩⟩, textKinds, [], [], []⟩).claveInput = trim " 20123456789 ") :=
  ⟨by decide, not_found_clears _ _ (by decide) rfl⟩

/-- C4.  Empty identifier: when the value of the identifier input is empty or consists
only of white space, the listener issues no request (the list of requests is unchanged and
no continuation is pending), and, whatever the fields held before and however a request
would have ended, every existing field is left empty and editable. -/
theorem empty_identifier_clears (r : FetchResult) (d : Doc)
    (h : ∀ c ∈ d.claveInput.data, isTrimChar c = true) :
    (onBlur d).2 = none ∧ (onBlur d).1.requests = d.requests ∧
      blurEvent r d = (onBlur d).1 ∧
      (blurEvent r d).fields = d.fields.forEach (fun _ => ⟨"", false⟩) ∧
      ∀ f ∈ (blurEvent r d).fields.existing, f.value = "" ∧ f.readOnly = false := by
  have ht := trim_of_all_space _ h
  rw [blurEvent_empty r d ht, onBlur_empty d ht]
  exact ⟨rfl, rfl, rfl, rfl, existing_clear d⟩

/-- Witness of C4: an identifier of two spaces and a tab. -/
theorem empty_identifier_clears_witness :
    (∀ c ∈ (" \t ".data), isTrimChar c = true) ∧
    ((onBlur ⟨" \t ", ⟨some ⟨"x", true⟩, none, some ⟨"", true⟩, some ⟨"y", false⟩,
        some ⟨"", false⟩⟩, textKinds, [], [], []⟩).2 = none ∧
      (onBlur ⟨" \t ", ⟨some ⟨"x", true⟩, none, some ⟨"", true⟩, some ⟨"y", false⟩,
        some ⟨"", false⟩⟩, textKinds, [], [], []⟩).1.requests = [] ∧
      blurEvent .rejected ⟨" \t ", ⟨some ⟨"x", true⟩, none, some ⟨"", true⟩, some ⟨"y", false⟩,
        some ⟨"", false⟩⟩, textKinds, [], [], []⟩ =
        (onBlur ⟨" \t ", ⟨some ⟨"x", true⟩, none, some ⟨"", true⟩, some ⟨"y", false⟩,
          some ⟨"", false⟩⟩, textKinds, [], [], []⟩).1 ∧
      (blurEvent .rejected ⟨" \t ", ⟨some ⟨"x", true⟩, none, some ⟨"", true⟩,
        some ⟨"y", false⟩, some ⟨"", false⟩⟩, textKinds, [], [], []⟩).fields =
        Fields.forEach (fun _ => ⟨"", false⟩)
          ⟨some ⟨"x", true⟩, none, some ⟨"", true⟩, some ⟨"y", false⟩, some ⟨"", false⟩⟩ ∧
      ∀ f ∈ (blurEvent .rejected ⟨" \t ", ⟨some ⟨"x", true⟩, none, some ⟨"", true⟩,
        some ⟨"y", false⟩, some ⟨"", false⟩⟩, textKinds, [], [], []⟩).fields.existing,
        f.value = "" ∧ f.readOnly = false) :=
  ⟨by decide, empty_identifier_clears .rejected _ (by decide)⟩

/-- C5.  Failure behaves as not-found: with an identifier that is not empty after
trimming, a request that ends in a transport failure or in a body that is not JSON leaves
the five fields, the identifier input and the list of requests exactly as a parsed response
whose `existe` is false does; the two outcomes differ in the notice shown and in the error
written to the console. -/
theorem failure_as_not_found (d : Doc) (data : Data) (r : FetchResult)
    (hk : trim d.claveInput ≠ "")
    (he : ToBoolean data.existe = false)
    (hr : r = .rejected ∨ r = .badJSON) :
    (blurEvent r d).fields = (blurEvent (.json (some data)) d).fields ∧
      (blurEvent r d).claveInput = (blurEvent (.json (some data)) d).claveInput ∧
      (blurEvent r d).requests = (blurEvent (.json (some data)) d).requests ∧
      (blurEvent r d).alerts = d.alerts ++ ["Ocurrió un error al intentar la búsqueda."] ∧
      (blurEvent (.json (some data)) d).alerts =
        d.alerts ++ ["Cliente no encontrado. Por favor, ingrese sus datos completos."] ∧
      (blurEvent r d).errors.length = d.errors.length + 1 ∧
      (blurEvent (.json (some data)) d).errors = d.errors := by
  rw [blurEvent_nonempty _ d hk, blurEvent_nonempty _ d hk,
    onSettled_not_found _ data _ he]
  rcases hr with h | h <;> subst h <;> unfold onSettled <;> simp [catchCallback_eq]

/-- Witness of C5: a transport failure against a response without a match. -/
theorem failure_as_not_found_witness :
    trim "123" ≠ "" ∧
    ((blurEvent .rejected ⟨"123", ⟨some ⟨"x", true⟩, none, none, none, none⟩, textKinds, [], [], []⟩).fields =
        (blurEvent (.json (some ⟨.bool false, .undefined, .undefined, .undefined, .undefined,
          .undefined⟩)) ⟨"123", ⟨some ⟨"x", true⟩, none, none, none, none⟩, textKinds, [], [], []⟩).fields ∧
      (blurEvent .rejected ⟨"123", ⟨some ⟨"x", true⟩, none, none, none, none⟩, textKinds, [], [], []⟩).claveInput =
        (blurEvent (.json (some ⟨.bool false, .undefined, .undefined, .undefined, .undefined,
          .undefined⟩)) ⟨"123", ⟨some ⟨"x", true⟩, none, none, none, none⟩, textKinds, [], [], []⟩).claveInput ∧
      (blurEvent .rejected ⟨"123", ⟨some ⟨"x", true⟩, none, none, none, none⟩, textKinds, [], [], []⟩).requests =
        (blurEvent (.json (some ⟨.bool false, .undefined, .undefined, .undefined, .undefined,
          .undefined⟩)) ⟨"123", ⟨some ⟨"x", true⟩, none, none, none, none⟩, textKinds, [], [], []⟩).requests ∧
      (blurEvent .rejected ⟨"123", ⟨some ⟨"x", true⟩, none, none, none, none⟩, textKinds, [], [], []⟩).alerts =
        [] ++ ["Ocurrió un error al intentar la búsqueda."] ∧
      (blurEvent (.json (some ⟨.bool false, .undefined, .undefined, .undefined, .undefined,
          .undefined⟩)) ⟨"123", ⟨some ⟨"x", true⟩, none, none, none, none⟩, textKinds, [], [], []⟩).alerts =
        [] ++ ["Cliente no encontrado. Por favor, ingrese sus datos completos."] ∧
      (blurEvent .rejected ⟨"123", ⟨some ⟨"x", true⟩, none, none, none, none⟩, textKinds, [], [], []⟩).errors.length =
        ([] : List JSError).length + 1 ∧
      (blurEvent (.json (some ⟨.bool false, .undefined, .undefined, .undefined, .undefined,
          .undefined⟩)) ⟨"123", ⟨some ⟨"x", true⟩, none, none, none, none⟩, textKinds, [], [], []⟩).errors = []) :=
  ⟨by decide, failure_as_not_found _ _ .rejected (by decide) rfl (Or.inl rfl)⟩

/-- C6.  The fields are never mixed: whatever the document held before, whichever of the
five field elements exist, and however the `blur` event ends (empty identifier, a response
with `existe` true or false, a transport or parsing failure, or an exception raised while
the response is applied), once the listener and its continuation have completed the
existing fields are all editable or all read-only. -/
theorem fields_never_mixed (r : FetchResult) (d : Doc) :
    (∀ f ∈ (blurEvent r d).fields.existing, f.readOnly = false) ∨
      (∀ f ∈ (blurEvent r d).fields.existing, f.readOnly = true) := by
  by_cases hk : trim d.claveInput = ""
  · rw [blurEvent_empty r d hk]
    exact Or.inl (fun f hf => (existing_clear d f hf).2)
  · rw [blurEvent_nonempty r d hk]
    generalize ({ d with requests := d.requests ++
      ["/servicios/api/buscar_cliente/?clave=" ++ trim d.claveInput] } : Doc) = d1
    generalize trim d.claveInput = clave
    have hcatch : ∀ (er : JSError) (d2 : Doc),
        ∀ f ∈ (catchCallback clave er d2).fields.existing, f.readOnly = false :=
      fun er d2 f hf => (existing_clear d2 f hf).2
    cases r with
    | rejected => exact Or.inl (hcatch _ _)
    | badJSON => exact Or.inl (hcatch _ _)
    | json data =>
      unfold onSettled
      simp only
      cases data with
      | none => exact Or.inl (hcatch _ _)
      | some data =>
        by_cases he : ToBoolean data.existe = true
        · by_cases hl : d1.fields.existing.length < 5
          · obtain ⟨d2, h2⟩ := thenCallback_found_missing clave data d1 he hl
            rw [h2]
            exact Or.inl (hcatch _ _)
          · obtain ⟨f1, f2, f3, f4, f5, hf⟩ := all_exist_of_length _ hl
            rw [thenCallback_found clave data d1 f1 f2 f3 f4 f5 he hf]
            refine Or.inr (fun f hf => ?_)
            simp [Fields.existing, Fields.toList] at hf
            rcases hf with h | h | h | h | h <;> subst h <;> rfl
        · rw [thenCallback_not_found clave data d1 (by simpa using he)]
          exact Or.inl (fun f hf => (existing_clear d1 f hf).2)

end Autocomplete
